import Mathlib

/-!
Verification of the govinfo bulk-data ingestion pipeline
(`scripts/ingestion/*`, `scripts/govinfo_bulk_downloader.py`,
`scripts/govinfo_118th_congress_downloader.py`).

Each Python component is shallowly embedded as an executable Lean
definition; machine floats (token counts, elapsed monotonic time) are
modelled over `ℚ`, the filesystem as an association list from path to
content, and the HTTP layer as an explicit response oracle so that the
requests a function makes can be observed in its result.
-/

namespace OpenDiscourse

/-!
## Rate limiter (`scripts/ingestion/rate_limiter.py`)

`RateLimiter` holds `rate`, `capacity`, a float `tokens` count, a FIFO
deque `_waiters` of futures, and a mutex.  Since every read-modify-write
happens inside the lock, the concurrent behaviour is the interleaving of
atomic steps: an `acquire` attempt (refill, then debit or enqueue) and a
`release` (pop one waiter and resolve its future).  Waiting tasks are
suspended on `await fut`; a blocked acquire can only resume after its
future id enters `woken`.
-/

structure RateLimiterState where
  rate : ℚ
  capacity : ℚ
  tokens : ℚ
  waiters : List Nat
  woken : List Nat
deriving DecidableEq, Repr

/-- `RateLimiter.__init__(self, rate, capacity)`: `tokens` starts at
`capacity`, the waiter deque empty. -/
def RateLimiterState.init (rate capacity : ℚ) : RateLimiterState :=
  { rate := rate, capacity := capacity, tokens := capacity, waiters := [], woken := [] }

/-- Lines 25-30 of `acquire`: refill only when `tokens < capacity`,
with `tokens = min(capacity, tokens + elapsed * rate)`. -/
def refill (s : RateLimiterState) (elapsed : ℚ) : RateLimiterState :=
  if s.tokens < s.capacity then
    { s with tokens := min s.capacity (s.tokens + elapsed * s.rate) }
  else s

/-- One pass of the `while True` body of `RateLimiter.acquire` (the
critical section): refill, then either debit `n` tokens and succeed, or
append a fresh future (identified by `id`) to the waiter deque and block.
Returns the new state and whether the attempt succeeded. -/
def acquireAttempt (s : RateLimiterState) (n : ℚ) (elapsed : ℚ) (id : Nat) :
    RateLimiterState × Bool :=
  if n ≤ (refill s elapsed).tokens then
    ({ refill s elapsed with tokens := (refill s elapsed).tokens - n }, true)
  else
    ({ refill s elapsed with waiters := (refill s elapsed).waiters ++ [id] }, false)

/-- `RateLimiter.release`: pop the oldest waiter, if any, and resolve its
future (`set_result(None)`), which is the only place a waiter is woken. -/
def releaseStep (s : RateLimiterState) : RateLimiterState :=
  match s.waiters with
  | [] => s
  | w :: rest => { s with waiters := rest, woken := w :: s.woken }

/-- Events other tasks can perform on the shared limiter. -/
inductive RLEvent where
  | acquireTry (id : Nat) (n : ℚ) (elapsed : ℚ)
  | release
deriving DecidableEq

def rlStep (s : RateLimiterState) : RLEvent → RateLimiterState
  | .acquireTry id n elapsed => (acquireAttempt s n elapsed id).1
  | .release => releaseStep s

def rlRun (s : RateLimiterState) (evs : List RLEvent) : RateLimiterState :=
  evs.foldl rlStep s

/-- The token-count invariant claimed by the spec. -/
def RLInv (s : RateLimiterState) : Prop :=
  0 ≤ s.rate ∧ 0 ≤ s.capacity ∧ 0 ≤ s.tokens ∧ s.tokens ≤ s.capacity

theorem refill_woken (s : RateLimiterState) (e : ℚ) : (refill s e).woken = s.woken := by
  unfold refill; split <;> rfl

theorem acquireAttempt_woken (s : RateLimiterState) (n e : ℚ) (id : Nat) :
    (acquireAttempt s n e id).1.woken = s.woken := by
  unfold acquireAttempt
  split <;> simpa using refill_woken s e

theorem rlStep_woken_of_not_release (s : RateLimiterState) (ev : RLEvent)
    (h : ev ≠ RLEvent.release) : (rlStep s ev).woken = s.woken := by
  cases ev with
  | acquireTry id n e => exact acquireAttempt_woken s n e id
  | release => exact absurd rfl h

theorem rlRun_woken_of_no_release (evs : List RLEvent) :
    ∀ s : RateLimiterState, (∀ ev ∈ evs, ev ≠ RLEvent.release) →
      (rlRun s evs).woken = s.woken := by
  induction evs with
  | nil => intro s _; rfl
  | cons ev rest ih =>
    intro s h
    have h1 : ev ≠ RLEvent.release := h ev (List.mem_cons_self _ _)
    have h2 : ∀ e ∈ rest, e ≠ RLEvent.release := fun e he => h e (List.mem_cons_of_mem _ he)
    calc (rlRun s (ev :: rest)).woken
        = (rlRun (rlStep s ev) rest).woken := rfl
      _ = (rlStep s ev).woken := ih _ h2
      _ = s.woken := rlStep_woken_of_not_release s ev h1

/-- The limiter state after `rate=5, capacity=5` is constructed and five
tokens are acquired immediately (elapsed time 0 on each attempt). -/
def afterFiveAcquires : RateLimiterState :=
  rlRun (RateLimiterState.init 5 5)
    [RLEvent.acquireTry 1 1 0, RLEvent.acquireTry 2 1 0, RLEvent.acquireTry 3 1 0,
     RLEvent.acquireTry 4 1 0, RLEvent.acquireTry 5 1 0]

theorem afterFiveAcquires_eq :
    afterFiveAcquires =
      { rate := 5, capacity := 5, tokens := 0, waiters := [], woken := [] } := by
  simp only [afterFiveAcquires, rlRun, List.foldl, rlStep, acquireAttempt, refill,
    RateLimiterState.init]
  norm_num

/-- **C3.** The claim says a queued `acquire` is woken once a release *or a
subsequent refill* makes `n` tokens available, so with `rate=5, capacity=5`
the 6th acquire completes after about `1/rate` seconds.  In the code the
only wake-up site is `release()` (never called by the ingestor): the 6th
acquire is enqueued, and along any continuation consisting of acquire
attempts and refills but no release — however much time elapses — its
future is never resolved, so the call never completes. -/
theorem c3_sixth_acquire_never_woken (e : ℚ) (evs : List RLEvent)
    (he0 : 0 ≤ e) (he1 : e * 5 < 1)
    (hnr : ∀ ev ∈ evs, ev ≠ RLEvent.release) :
    (acquireAttempt afterFiveAcquires 1 e 6).2 = false ∧
      6 ∈ (acquireAttempt afterFiveAcquires 1 e 6).1.waiters ∧
      6 ∉ (rlRun (acquireAttempt afterFiveAcquires 1 e 6).1 evs).woken := by
  have href : refill afterFiveAcquires e =
      { rate := 5, capacity := 5, tokens := min 5 (0 + e * 5), waiters := [], woken := [] } := by
    rw [afterFiveAcquires_eq]
    unfold refill
    norm_num
  have htok : ¬ ((1 : ℚ) ≤ (refill afterFiveAcquires e).tokens) := by
    rw [href]
    intro hle
    have hm : min (5 : ℚ) (0 + e * 5) ≤ 0 + e * 5 := min_le_right _ _
    simp only at hle
    linarith
  have hatt : acquireAttempt afterFiveAcquires 1 e 6 =
      ({ refill afterFiveAcquires e with
          waiters := (refill afterFiveAcquires e).waiters ++ [6] }, false) := by
    unfold acquireAttempt
    simp [htok]
  refine ⟨by rw [hatt], ?_, ?_⟩
  · rw [hatt, href]; simp
  · rw [rlRun_woken_of_no_release evs _ hnr, hatt, href]
    simp

theorem c3_sixth_acquire_never_woken_witness :
    (acquireAttempt afterFiveAcquires 1 (1/10) 6).2 = false ∧
      6 ∈ (acquireAttempt afterFiveAcquires 1 (1/10) 6).1.waiters ∧
      6 ∉ (rlRun (acquireAttempt afterFiveAcquires 1 (1/10) 6).1
            [RLEvent.acquireTry 7 1 3]).woken :=
  c3_sixth_acquire_never_woken (1/10) [RLEvent.acquireTry 7 1 3]
    (by norm_num) (by norm_num)
    (by intro ev hev
        simp only [List.mem_singleton] at hev
        subst hev
        intro hcon
        exact RLEvent.noConfusion hcon)

theorem refill_inv (s : RateLimiterState) (e : ℚ) (h : RLInv s) (he : 0 ≤ e) :
    RLInv (refill s e) := by
  obtain ⟨hr, hc, h0, h1⟩ := h
  unfold refill
  split
  · exact ⟨hr, hc, le_min hc (add_nonneg h0 (mul_nonneg he hr)), min_le_left _ _⟩
  · exact ⟨hr, hc, h0, h1⟩

/-- **C10.** The token count stays within `0 ≤ tokens ≤ capacity`: it holds
of the freshly constructed limiter and is preserved by every acquire
attempt (refill capped at `capacity`, debit only when `tokens ≥ n`). -/
theorem c10_token_invariant :
    (∀ rate capacity : ℚ, 0 ≤ rate → 0 ≤ capacity →
        RLInv (RateLimiterState.init rate capacity)) ∧
    (∀ (s : RateLimiterState) (n e : ℚ) (id : Nat), RLInv s → 0 ≤ n → 0 ≤ e →
        RLInv (acquireAttempt s n e id).1) := by
  constructor
  · intro rate capacity hr hc
    exact ⟨hr, hc, hc, le_refl _⟩
  · intro s n e id hinv hn he
    obtain ⟨hr, hc, h0, h1⟩ := refill_inv s e hinv he
    unfold acquireAttempt
    split
    case isTrue hge =>
      refine ⟨hr, hc, ?_, ?_⟩
      · show (0 : ℚ) ≤ (refill s e).tokens - n
        linarith
      · show (refill s e).tokens - n ≤ (refill s e).capacity
        linarith
    case isFalse hge =>
      exact ⟨hr, hc, h0, h1⟩

def sampleMidRL : RateLimiterState :=
  { rate := 5, capacity := 5, tokens := 3, waiters := [], woken := [] }

theorem c10_token_invariant_witness :
    RLInv (RateLimiterState.init 5 5) ∧ RLInv (acquireAttempt sampleMidRL 1 2 0).1 :=
  ⟨c10_token_invariant.1 5 5 (by norm_num) (by norm_num),
   c10_token_invariant.2 sampleMidRL 1 2 0
     ⟨by norm_num [sampleMidRL], by norm_num [sampleMidRL], by norm_num [sampleMidRL],
      by norm_num [sampleMidRL]⟩ (by norm_num) (by norm_num)⟩

/-!
## `GovInfoIngestor.__init__` (`scripts/ingestion/ingestor.py`, lines 35-82)

The constructor stores its configuration and then runs
`self.rate_limiter = RateLimiter(rate_limit)` — a call with exactly one
positional argument.  Python call semantics are embedded by passing the
positional argument list explicitly: `RateLimiter.__init__(self, rate,
capacity)` binds exactly two, anything else raises `TypeError`.
-/

/-- Calling `RateLimiter(...)` with a list of positional arguments:
`__init__(self, rate: int, capacity: int)` has no defaults, so the call
succeeds exactly when two arguments are supplied. -/
def rateLimiterCall (posArgs : List ℚ) : Except String RateLimiterState :=
  match posArgs with
  | [rate, capacity] => .ok (RateLimiterState.init rate capacity)
  | _ => .error "TypeError"

structure IngestorConfig where
  outputDir : String
  workers : ℕ
  timeout : ℕ
  maxRetries : ℕ
  rateLimit : ℚ
  chunkSize : ℕ
  validateXml : Bool

/-- Defaults from `scripts/ingestion/config.py`: `WORKERS=10`,
`REQUEST_TIMEOUT=30`, `MAX_RETRIES=3`, `RATE_LIMIT=10`,
`CHUNK_SIZE=1024*1024`, `VALIDATE_XML=true`. -/
def defaultIngestorConfig : IngestorConfig :=
  { outputDir := "govinfo_data", workers := 10, timeout := 30, maxRetries := 3,
    rateLimit := 10, chunkSize := 1024 * 1024, validateXml := true }

structure GovInfoIngestorObj where
  config : IngestorConfig
  rateLimiter : RateLimiterState

/-- `GovInfoIngestor.__init__`: after storing the configuration it
executes `RateLimiter(rate_limit)`, passing the single positional
argument `rate_limit`. -/
def govInfoIngestorInit (cfg : IngestorConfig) : Except String GovInfoIngestorObj :=
  match rateLimiterCall [cfg.rateLimit] with
  | .ok rl => .ok { config := cfg, rateLimiter := rl }
  | .error e => .error e

/-- **C5.** Constructing a `GovInfoIngestor` never succeeds: the
constructor calls `RateLimiter(rate_limit)` with one positional argument
while `RateLimiter.__init__(self, rate, capacity)` requires two, so every
configuration — the defaults included — raises `TypeError`. -/
theorem c5_ingestor_init_raises (cfg : IngestorConfig) :
    govInfoIngestorInit cfg = .error "TypeError" := rfl

/-!
## String primitives

Character-level implementations of the Python string operations the
scripts use (`.lower()`, `.endswith(...)`, `.rstrip('/')`, `.strip('/')`,
`.split('/')`, `.startswith(...)`, `x in s`, `.replace(...)`), ASCII
semantics, kept executable down to the kernel.
-/

/-- Python `s.lower()` (ASCII). -/
def strLower (s : String) : String := String.mk (s.toList.map Char.toLower)

/-- Python `s.endswith(suffix)`. -/
def strEndsWith (s suffix : String) : Bool :=
  suffix.toList.reverse.isPrefixOf s.toList.reverse

/-- Python `s.startswith(pre)`. -/
def strStartsWith (s pre : String) : Bool :=
  pre.toList.isPrefixOf s.toList

def listHasSub (needle : List Char) : List Char → Bool
  | [] => needle.isEmpty
  | c :: rest => needle.isPrefixOf (c :: rest) || listHasSub needle rest

/-- Python `needle in hay` on strings. -/
def strHasSub (hay needle : String) : Bool := listHasSub needle.toList hay.toList

def splitOnChar (c : Char) : List Char → List (List Char)
  | [] => [[]]
  | x :: xs =>
    let r := splitOnChar c xs
    if x == c then [] :: r
    else
      match r with
      | [] => [[x]]
      | y :: ys => (x :: y) :: ys

/-- Python `s.split('/')`. -/
def strSplitSlash (s : String) : List String :=
  (splitOnChar '/' s.toList).map String.mk

/-- Python `s.rstrip('/')`. -/
def strRstripSlash (s : String) : String :=
  String.mk ((s.toList.reverse.dropWhile (fun c => c == '/')).reverse)

/-- Python `s.strip('/')`. -/
def strStripSlash (s : String) : String :=
  String.mk
    (((s.toList.dropWhile (fun c => c == '/')).reverse.dropWhile (fun c => c == '/')).reverse)

def replaceList (pat rep : List Char) : ℕ → List Char → List Char
  | 0, l => l
  | _ + 1, [] => []
  | fuel + 1, x :: xs =>
    if pat.isPrefixOf (x :: xs) && !pat.isEmpty then
      rep ++ replaceList pat rep fuel ((x :: xs).drop pat.length)
    else
      x :: replaceList pat rep fuel xs

/-- Python `s.replace(pat, rep)` (all occurrences, left to right).  Each
step consumes at least one input character, so `s.length` steps
suffice. -/
def strReplace (s pat rep : String) : String :=
  String.mk (replaceList pat.toList rep.toList s.toList.length s.toList)

/-!
## In-memory filesystem

The filesystem is an association list from (joined) path to file content.
`fsWrite` models opening a path in `wb` mode (create or truncate),
`fsUnlink` models `Path.unlink`, `fsRead` models `Path.read_text`, and
`fsHas` models `Path.exists()`.
-/

def fsRead (fs : List (String × String)) (p : String) : Option String :=
  (fs.find? (fun e => e.1 == p)).map (fun e => e.2)

def fsHas (fs : List (String × String)) (p : String) : Bool := (fsRead fs p).isSome

def fsWrite (fs : List (String × String)) (p c : String) : List (String × String) :=
  (p, c) :: fs.filter (fun e => !(e.1 == p))

def fsUnlink (fs : List (String × String)) (p : String) : List (String × String) :=
  fs.filter (fun e => !(e.1 == p))

theorem fsRead_fsWrite_self (fs : List (String × String)) (p c : String) :
    fsRead (fsWrite fs p c) p = some c := by
  simp [fsRead, fsWrite, List.find?]

theorem fsRead_fsUnlink_self (fs : List (String × String)) (p : String) :
    fsRead (fsUnlink fs p) p = none := by
  induction fs with
  | nil => rfl
  | cons e rest ih =>
    by_cases h : e.1 == p
    · simpa [fsUnlink, List.filter, h] using ih
    · simp only [fsUnlink, List.filter, h] at ih ⊢
      simpa [fsRead, List.find?, h] using ih

/-!
## `GovInfoIngestor.download_file` (`scripts/ingestion/ingestor.py`, lines 114-177)

The aiohttp session is abstracted as a response oracle `resp : attempt ↦
(status, body)`; the oracle never raises, so the `except` clauses are
unreachable and the loop's control flow is: HTTP 200 → write, optionally
validate (deleting the file and returning `False` when invalid); 404 →
return `False`; any other status → log and move to the next attempt; loop
exhausted → return `False`.  The schema validator
(`XMLValidator.validate_xml` over the loaded XSDs) is abstracted as a
boolean function `validator content schemaName`.
-/

structure HttpResp where
  status : ℕ
  body : String

/-- `self.schema_map` from `GovInfoIngestor.__init__`. -/
def schemaMap : List (String × String) :=
  [("BILLS", "bills"), ("BILLSTATUS", "billstatus"), ("PLAW", "plaw"),
   ("STATUTE", "statute"), ("FR", "federalregister"), ("CREC", "crec")]

def schemaMapLookup (docType : String) : Option String :=
  (schemaMap.find? (fun e => e.1 == docType)).map (fun e => e.2)

/-- `GovInfoIngestor.validate_downloaded_file`: returns `True` when no
validator is configured or the document type has no schema; otherwise
reads the file back and validates it (any exception, e.g. the file being
unreadable, yields `False`). -/
def validateDownloadedFile (validator : String → String → Bool) (validateXml : Bool)
    (fs : List (String × String)) (path docType : String) : Bool :=
  if !validateXml then true
  else
    match schemaMapLookup docType with
    | none => true
    | some schemaName =>
      match fsRead fs path with
      | some content => validator content schemaName
      | none => false

/-- The retry loop of `download_file` (`for attempt in range(retries + 1)`),
by remaining iterations. -/
def ingDownloadLoop (validator : String → String → Bool) (validateXml : Bool)
    (resp : ℕ → HttpResp) (path docType : String) :
    ℕ → ℕ → List (String × String) → Bool × List (String × String)
  | _, 0, fs => (false, fs)
  | attempt, remaining + 1, fs =>
    let r := resp attempt
    if r.status == 200 then
      let fs1 := fsWrite fs path r.body
      if validateXml && (schemaMapLookup docType).isSome then
        if validateDownloadedFile validator validateXml fs1 path docType then (true, fs1)
        else (false, fsUnlink fs1 path)
      else (true, fs1)
    else if r.status == 404 then (false, fs)
    else ingDownloadLoop validator validateXml resp path docType (attempt + 1) remaining fs

/-- `GovInfoIngestor.download_file`: early-return `True` when the output
path already exists, otherwise run up to `retries + 1` attempts. -/
def ingDownloadFile (validator : String → String → Bool) (validateXml : Bool)
    (resp : ℕ → HttpResp) (path docType : String) (retries : ℕ)
    (fs : List (String × String)) : Bool × List (String × String) :=
  if fsHas fs path then (true, fs)
  else ingDownloadLoop validator validateXml resp path docType 0 (retries + 1) fs

theorem ingDownloadLoop_invalid (validator : String → String → Bool)
    (resp : ℕ → HttpResp) (path docType schemaName : String)
    (hschema : schemaMapLookup docType = some schemaName)
    (hbad : ∀ i, (resp i).status = 200 → validator (resp i).body schemaName = false) :
    ∀ (remaining attempt : ℕ) (fs : List (String × String)), fsRead fs path = none →
      (ingDownloadLoop validator true resp path docType attempt remaining fs).1 = false ∧
        fsRead (ingDownloadLoop validator true resp path docType attempt remaining fs).2
          path = none := by
  intro remaining
  induction remaining with
  | zero => intro attempt fs hfs; exact ⟨rfl, hfs⟩
  | succ rem ih =>
    intro attempt fs hfs
    by_cases h200 : (resp attempt).status = 200
    · have hval : validateDownloadedFile validator true
          (fsWrite fs path (resp attempt).body) path docType = false := by
        simp only [validateDownloadedFile, hschema, fsRead_fsWrite_self]
        simpa using hbad attempt h200
      simp only [ingDownloadLoop, h200, hschema]
      simp [hval, fsRead_fsUnlink_self]
    · by_cases h404 : (resp attempt).status = 404
      · simp only [ingDownloadLoop, h404]
        have : ((resp attempt).status == 200) = false := by
          simp [h200]
        simp [this, hfs]
      · have e200 : ((resp attempt).status == 200) = false := by simp [h200]
        have e404 : ((resp attempt).status == 404) = false := by simp [h404]
        simp only [ingDownloadLoop, e200, e404, Bool.false_eq_true, if_false]
        exact ih (attempt + 1) fs hfs

/-- **C6.** With XML validation enabled and a schema registered for the
document type, whenever every HTTP 200 body fails schema validation the
worker returns `False` (failed) and leaves no file at the destination
path: the just-written invalid file is always unlinked. -/
theorem c6_invalid_file_never_remains (validator : String → String → Bool)
    (resp : ℕ → HttpResp) (path docType schemaName : String) (retries : ℕ)
    (fs : List (String × String))
    (hschema : schemaMapLookup docType = some schemaName)
    (hfs : fsRead fs path = none)
    (hbad : ∀ i, (resp i).status = 200 → validator (resp i).body schemaName = false) :
    (ingDownloadFile validator true resp path docType retries fs).1 = false ∧
      fsRead (ingDownloadFile validator true resp path docType retries fs).2 path = none := by
  have hnot : fsHas fs path = false := by simp [fsHas, hfs]
  simp only [ingDownloadFile, hnot, Bool.false_eq_true, if_false]
  exact ingDownloadLoop_invalid validator resp path docType schemaName hschema hbad
    (retries + 1) 0 fs hfs

theorem c6_invalid_file_never_remains_witness :
    (ingDownloadFile (fun _ _ => false) true (fun _ => ⟨200, "<xml/>"⟩)
        "out/118/BILLS/a.xml" "BILLS" 3 []).1 = false ∧
      fsRead (ingDownloadFile (fun _ _ => false) true (fun _ => ⟨200, "<xml/>"⟩)
        "out/118/BILLS/a.xml" "BILLS" 3 []).2 "out/118/BILLS/a.xml" = none :=
  c6_invalid_file_never_remains (fun _ _ => false) (fun _ => ⟨200, "<xml/>"⟩)
    "out/118/BILLS/a.xml" "BILLS" "bills" 3 [] rfl rfl (fun _ _ => rfl)

/-!
## `GovInfoIngestor.process_document_type` (`scripts/ingestion/ingestor.py`, lines 276-318)

The per-(congress, document type) driver: list the documents, derive each
output path as `output_dir/<congress>/<doc_type>/<filename>` with
`filename = url.rstrip('/').split('/')[-1]`, run one `download_file` per
URL, and return the number of successes.  Downloads are abstracted as a
function returning the success flag together with the paths that the
download itself wrote; the driver performs no filesystem writes of its
own — in particular it creates no manifest or failure-log file.

Paths are represented as segment lists.
-/

/-- `url.rstrip('/').split('/')[-1]`. -/
def deriveFilename (url : String) : String :=
  (strSplitSlash (strRstripSlash url)).getLastD ""

def processDocumentType (outputDir : List String) (congress : ℕ) (docType : String)
    (documents : List String)
    (download : String → List String → Bool × List (List String)) :
    ℕ × List (List String) :=
  if documents.isEmpty then (0, [])
  else
    let results := documents.map (fun docUrl =>
      download docUrl (outputDir ++ [toString congress, docType, deriveFilename docUrl]))
    (results.countP (fun r => r.1), (results.map (fun r => r.2)).flatten)

/-- The download stub of
`test_process_document_type_writes_manifest_and_failures`: the URL ending
in `ok.xml` succeeds and writes its output path, the other fails and
writes nothing. -/
def c1DownloadStub (url : String) (path : List String) : Bool × List (List String) :=
  if strEndsWith url "ok.xml" then (true, [path]) else (false, [])

/-- **C1.** On the claimed scenario — two discovered URLs of which one
succeeds and one fails — `process_document_type` merely returns the
success count `1`; the only path touched is the successful download's
file, and no `manifest.json` or `failures.json` is produced under
`output_dir/118/BILLS/` (the source writes no manifest or failure log at
all, contradicting the spec and the integration test). -/
theorem c1_no_manifest_or_failure_log_written :
    processDocumentType ["tmp"] 118 "BILLS"
        ["https://example.com/ok.xml", "https://example.com/fail.xml"] c1DownloadStub =
      (1, [["tmp", "118", "BILLS", "ok.xml"]]) ∧
      ["tmp", "118", "BILLS", "manifest.json"] ∉
        (processDocumentType ["tmp"] 118 "BILLS"
          ["https://example.com/ok.xml", "https://example.com/fail.xml"] c1DownloadStub).2 ∧
      ["tmp", "118", "BILLS", "failures.json"] ∉
        (processDocumentType ["tmp"] 118 "BILLS"
          ["https://example.com/ok.xml", "https://example.com/fail.xml"] c1DownloadStub).2 := by
  refine ⟨?_, ?_, ?_⟩ <;> decide

/-!
## `GovInfoIngestor.get_document_list` (`scripts/ingestion/ingestor.py`, lines 179-274)

`list_dir` fetches the XML listing endpoint
(`url.replace('/bulkdata/', '/bulkdata/xml/')`).  Only when that request
returns status 200 does it look at the body: a parseable XML body is
walked (`<file>` elements with `<link>` and `<folder>`); a body that
fails `ET.fromstring` (or whose walk raises) falls back to the JSON
listing endpoint.  A non-200 XML response only logs a warning — there is
no network fall-back on that path.

The network is an oracle from URL to response, where `xmlEntries` is the
outcome of parsing the body as a listing (`none` = `ET.fromstring`
raised) and `json` the outcome of `resp.json()`.  The result carries the
discovered files together with the list of URLs requested, so that "the
JSON endpoint was never contacted" is observable.  `fuel` only bounds the
(unbounded) directory recursion so the definition is total; every
theorem instantiates it generously.
-/

structure XEntry where
  link : Option String
  folder : Option String
deriving DecidableEq, Repr

inductive JNode where
  | obj (fields : List (String × JNode))
  | arr (elems : List JNode)
  | str (s : String)
  | jbool (b : Bool)
  | null

structure ListingResp where
  status : ℕ
  xmlEntries : Option (List XEntry)
  json : Option JNode

def jLookup (fields : List (String × JNode)) (key : String) : Option JNode :=
  (fields.find? (fun e => e.1 == key)).map (fun e => e.2)

def isJBool (o : Option JNode) (b : Bool) : Bool :=
  match o with
  | some (.jbool b2) => b == b2
  | _ => false

/-- The nested `walk` of the JSON fallback: a dict with `folder: true` and
a `link` key recurses into its `files` value (default `[]`); a dict with
`folder: false` and a `link` key contributes the link when it is a string
ending in `.xml`; any other dict is walked value by value; lists are
walked element-wise. -/
def jsonWalk : ℕ → JNode → List String
  | 0, _ => []
  | fuel + 1, node =>
    match node with
    | .obj fields =>
      if isJBool (jLookup fields "folder") true && (jLookup fields "link").isSome then
        jsonWalk fuel ((jLookup fields "files").getD (.arr []))
      else if isJBool (jLookup fields "folder") false && (jLookup fields "link").isSome then
        match jLookup fields "link" with
        | some (.str link) => if strEndsWith (strLower link) ".xml" then [link] else []
        | _ => []
      else
        ((fields.map (fun e => e.2)).map (fun v => jsonWalk fuel v)).flatten
    | .arr elems => (elems.map (fun v => jsonWalk fuel v)).flatten
    | _ => []

/-- The `for f in root.findall('.//file')` walk over a parsed XML
listing: entries without a link are skipped; `<folder>true</folder>`
entries are recursed into (via `recur`, the directory lister); other
links are kept when they end in `.xml`. -/
def listDirEntries (recur : String → List String × List String) :
    List XEntry → List String × List String
  | [] => ([], [])
  | e :: rest =>
    let r2 := listDirEntries recur rest
    match e.link with
    | none => r2
    | some link =>
      let isFolder :=
        match e.folder with
        | some t => strLower t == "true"
        | none => false
      if isFolder then
        let sub := recur link
        (sub.1 ++ r2.1, sub.2 ++ r2.2)
      else if strEndsWith (strLower link) ".xml" then (link :: r2.1, r2.2)
      else r2

/-- `list_dir(url, depth)`.  Returns `(files, requested URLs)`. -/
def listDir (net : String → ListingResp) : ℕ → String → List String × List String
  | 0, _ => ([], [])
  | fuel + 1, url =>
    let xmlUrl := strReplace url "/bulkdata/" "/bulkdata/xml/"
    let resp := net xmlUrl
    if resp.status == 200 then
      match resp.xmlEntries with
      | some entries =>
        let r := listDirEntries (fun l => listDir net fuel l) entries
        (r.1, xmlUrl :: r.2)
      | none =>
        let jsonUrl := strReplace url "/bulkdata/" "/bulkdata/json/"
        let jresp := net jsonUrl
        if jresp.status == 200 then
          match jresp.json with
          | some data => (jsonWalk (fuel + 1) data, [xmlUrl, jsonUrl])
          | none => ([], [xmlUrl, jsonUrl])
        else ([], [xmlUrl, jsonUrl])
    else ([], [xmlUrl])

def BASE_URL : String := "https://www.govinfo.gov/bulkdata"

/-- `get_document_list(session, congress, doc_type)` with its
`base = f"{BASE_URL}/{doc_type}/{congress}/"`. -/
def getDocumentList (net : String → ListingResp) (fuel : ℕ) (congress : ℕ)
    (docType : String) : List String × List String :=
  listDir net fuel (BASE_URL ++ "/" ++ docType ++ "/" ++ toString congress ++ "/")

def c2XmlUrl : String := "https://www.govinfo.gov/bulkdata/xml/BILLS/118/"

def c2JsonUrl : String := "https://www.govinfo.gov/bulkdata/json/BILLS/118/"

/-- The JSON listing payload of `test_get_document_list_json_fallback`. -/
def c2Json : JNode :=
  .obj [("files", .arr
    [.obj [("name", .str "test1.xml"),
           ("link", .str "https://www.govinfo.gov/bulkdata/BILLS/118/test1.xml"),
           ("folder", .jbool false)],
     .obj [("name", .str "subdir"),
           ("link", .str "https://www.govinfo.gov/bulkdata/BILLS/118/subdir/"),
           ("folder", .jbool true)],
     .obj [("name", .str "test2.xml"),
           ("link", .str "https://www.govinfo.gov/bulkdata/BILLS/118/test2.xml"),
           ("folder", .jbool false)]])]

/-- The mock server of the claim: HTTP 404 on the XML listing endpoint,
a valid JSON listing on the JSON endpoint. -/
def c2Net (u : String) : ListingResp :=
  if u == c2XmlUrl then ⟨404, none, none⟩
  else if u == c2JsonUrl then ⟨200, none, some c2Json⟩
  else ⟨500, none, none⟩

/-- **C2.** With the XML listing endpoint answering HTTP 404 and the JSON
endpoint holding a valid listing, `get_document_list` returns no files at
all and never even requests the JSON endpoint: the JSON fallback is only
reachable from the status-200 parse-failure path, not from a non-200
status, so the claimed fallback (and the integration test asserting it)
fails. -/
theorem c2_no_json_fallback_on_404 :
    getDocumentList c2Net 5 118 "BILLS" = ([], [c2XmlUrl]) ∧
      c2JsonUrl ∉ (getDocumentList c2Net 5 118 "BILLS").2 ∧
      "https://www.govinfo.gov/bulkdata/BILLS/118/test1.xml" ∉
        (getDocumentList c2Net 5 118 "BILLS").1 := by
  refine ⟨?_, ?_, ?_⟩ <;> decide

/-!
## `GovInfoBulkDownloader._download_file` (`scripts/govinfo_bulk_downloader.py`, lines 238-344)

State shared across worker invocations: the in-memory completed-URL set
`downloaded_files`, the SQLite `downloads` table (url, checksum, status),
the `failed_urls` set, and the filesystem.  The HTTP session is an oracle
`req : attempt × accept-header ↦ response` which never raises at the
transport level, and SHA-256 is an abstract `hash` function on contents.
The list of `(attempt, header)` requests actually issued is part of the
result, so "no network call" and "retried with a wildcard header" are
observable facts.
-/

inductive Accept where
  | standard
  | wildcard
deriving DecidableEq, Repr

inductive DStatus where
  | pending
  | downloading
  | completed
  | failed
  | skipped
deriving DecidableEq, Repr

structure DbRecord where
  url : String
  checksum : Option String
  status : String
deriving DecidableEq, Repr

structure DlState where
  downloadedFiles : List String
  db : List DbRecord
  failedUrls : List String
  fs : List (String × String)
deriving DecidableEq, Repr

structure DlResult where
  url : String
  localPath : String
  status : DStatus
  error : Option String
  checksum : Option String
deriving DecidableEq, Repr

/-- `_is_duplicate(self, url, checksum)`: runs
`SELECT 1 FROM downloads WHERE checksum = ?` — the `url` parameter is
never used in the query, so a row recorded for the *same* URL matches
too. -/
def isDuplicate (db : List DbRecord) (url : String) (checksum : String) : Bool :=
  db.any (fun r => r.checksum == some checksum)

def dropAfterSub (needle : List Char) : List Char → Option (List Char)
  | [] => none
  | x :: xs =>
    if needle.isPrefixOf (x :: xs) then some ((x :: xs).drop needle.length)
    else dropAfterSub needle xs

/-- `urlparse(url).path` for an absolute `scheme://host/path` URL. -/
def urlPathOf (url : String) : String :=
  match dropAfterSub "://".toList url.toList with
  | none => url
  | some rest => String.mk (rest.dropWhile (fun c => !(c == '/')))

/-- `_get_local_path(self, url, base_dir)`: split the URL path on `/`,
drop empty segments and segments starting with `.`; the first segment is
the collection directory, the middle segments become nested
subdirectories when there are more than two, the last is the filename. -/
def getLocalPath (url : String) (baseDir : List String) : List String :=
  let pathParts := strSplitSlash (strStripSlash (urlPathOf url))
  let cleanParts := pathParts.filter (fun p => !(p == "") && !(strStartsWith p "."))
  match cleanParts with
  | [] => baseDir ++ ["misc", "unknown"]
  | c :: rest =>
    let subdirs := if (c :: rest).length > 2 then rest.dropLast else []
    baseDir ++ [c] ++ subdirs ++ [(c :: rest).getLastD "unknown"]

def joinSegments : List String → String
  | [] => ""
  | [x] => x
  | x :: y :: rest => x ++ "/" ++ joinSegments (y :: rest)

/-- The retry loop `for attempt in range(retry_count)` of
`_download_file`, with `remaining = retry_count - attempt` iterations
left.  HTTP 200: stream to disk, checksum, duplicate check (unlink +
`SKIPPED` on a match), otherwise `COMPLETED` and the URL joins
`downloaded_files`.  HTTP 406: re-issue the request once with a wildcard
`Accept` header; a 200 on that retry runs `continue` (the body is
dropped and the next attempt re-requests with the original headers),
anything else raises.  Any other status raises.  A raise on the final
attempt records `FAILED` and adds the URL to `failed_urls`; earlier
raises sleep and move on.  Falling off the end of the loop returns the
result unchanged (status still `PENDING`). -/
def dlLoop (hash : String → String) (req : ℕ → Accept → HttpResp)
    (url localPath : String) (retryCount : ℕ) :
    ℕ → ℕ → DlState → DlResult → List (ℕ × Accept) →
      DlResult × DlState × List (ℕ × Accept)
  | _, 0, st, res, calls => (res, st, calls)
  | attempt, remaining + 1, st, res, calls =>
    let r := req attempt Accept.standard
    let calls1 := calls ++ [(attempt, Accept.standard)]
    if r.status == 200 then
      let fs1 := fsWrite st.fs localPath r.body
      let checksum := hash r.body
      if isDuplicate st.db url checksum then
        ({ res with
            checksum := some checksum
            status := DStatus.skipped
            error := some "Duplicate file detected" },
         { st with fs := fsUnlink fs1 localPath }, calls1)
      else
        ({ res with checksum := some checksum, status := DStatus.completed },
         { st with fs := fs1, downloadedFiles := st.downloadedFiles ++ [url] }, calls1)
    else if r.status == 406 then
      let r2 := req attempt Accept.wildcard
      let calls2 := calls1 ++ [(attempt, Accept.wildcard)]
      if r2.status == 200 then
        dlLoop hash req url localPath retryCount (attempt + 1) remaining st res calls2
      else if attempt == retryCount - 1 then
        ({ res with
            status := DStatus.failed
            error := some "406 error even with wildcard accept header" },
         { st with failedUrls := st.failedUrls ++ [url] }, calls2)
      else
        dlLoop hash req url localPath retryCount (attempt + 1) remaining st res calls2
    else if attempt == retryCount - 1 then
      ({ res with status := DStatus.failed, error := some ("HTTP " ++ toString r.status) },
       { st with failedUrls := st.failedUrls ++ [url] }, calls1)
    else
      dlLoop hash req url localPath retryCount (attempt + 1) remaining st res calls1

/-- `_download_file(self, url, base_dir, retry_count)`: a URL already in
the completed-downloads set short-circuits to `SKIPPED` /
`"Already downloaded"` before any request is made; otherwise the local
path is derived and the retry loop runs. -/
def bulkDownloadFile (hash : String → String) (req : ℕ → Accept → HttpResp)
    (url : String) (baseDir : List String) (retryCount : ℕ) (st : DlState) :
    DlResult × DlState × List (ℕ × Accept) :=
  let res0 : DlResult :=
    { url := url, localPath := "", status := DStatus.pending, error := none, checksum := none }
  if st.downloadedFiles.contains url then
    ({ res0 with status := DStatus.skipped, error := some "Already downloaded" }, st, [])
  else
    let lp := joinSegments (getLocalPath url baseDir)
    dlLoop hash req url lp retryCount 0 retryCount st { res0 with localPath := lp } []

/-- **C8.** A URL present in the completed-downloads tracking set is
skipped with the already-downloaded error (the source capitalises the
message as `"Already downloaded"`) and no request is issued; the state is
untouched, so a second invocation behaves identically — zero network
calls on both. -/
theorem c8_tracked_url_skipped_without_network (hash : String → String)
    (req : ℕ → Accept → HttpResp) (url : String) (baseDir : List String)
    (retryCount : ℕ) (st : DlState)
    (h : st.downloadedFiles.contains url = true) :
    (bulkDownloadFile hash req url baseDir retryCount st).1.status = DStatus.skipped ∧
      ((bulkDownloadFile hash req url baseDir retryCount st).1.error.map strLower) =
        some "already downloaded" ∧
      (bulkDownloadFile hash req url baseDir retryCount st).2.2 = [] ∧
      (bulkDownloadFile hash req url baseDir retryCount st).2.1 = st ∧
      (bulkDownloadFile hash req url baseDir retryCount
          (bulkDownloadFile hash req url baseDir retryCount st).2.1).1.status =
        DStatus.skipped ∧
      (bulkDownloadFile hash req url baseDir retryCount
          (bulkDownloadFile hash req url baseDir retryCount st).2.1).2.2 = [] := by
  have hlower : strLower "Already downloaded" = "already downloaded" := by decide
  have hmem : url ∈ st.downloadedFiles := by simpa using h
  simp [bulkDownloadFile, hmem, hlower]

def c8St : DlState :=
  { downloadedFiles := ["https://www.govinfo.gov/bulkdata/BILLS/118/1/hr/a.xml"],
    db := [], failedUrls := [], fs := [] }

theorem c8_tracked_url_skipped_without_network_witness :
    (bulkDownloadFile (fun s => s) (fun _ _ => ⟨200, "b"⟩)
        "https://www.govinfo.gov/bulkdata/BILLS/118/1/hr/a.xml" ["data"] 3 c8St).1.status =
      DStatus.skipped ∧
    ((bulkDownloadFile (fun s => s) (fun _ _ => ⟨200, "b"⟩)
        "https://www.govinfo.gov/bulkdata/BILLS/118/1/hr/a.xml" ["data"] 3 c8St).1.error.map
          strLower) = some "already downloaded" ∧
    (bulkDownloadFile (fun s => s) (fun _ _ => ⟨200, "b"⟩)
        "https://www.govinfo.gov/bulkdata/BILLS/118/1/hr/a.xml" ["data"] 3 c8St).2.2 = [] ∧
    (bulkDownloadFile (fun s => s) (fun _ _ => ⟨200, "b"⟩)
        "https://www.govinfo.gov/bulkdata/BILLS/118/1/hr/a.xml" ["data"] 3 c8St).2.1 = c8St ∧
    (bulkDownloadFile (fun s => s) (fun _ _ => ⟨200, "b"⟩)
        "https://www.govinfo.gov/bulkdata/BILLS/118/1/hr/a.xml" ["data"] 3
        (bulkDownloadFile (fun s => s) (fun _ _ => ⟨200, "b"⟩)
          "https://www.govinfo.gov/bulkdata/BILLS/118/1/hr/a.xml" ["data"] 3 c8St).2.1).1.status =
      DStatus.skipped ∧
    (bulkDownloadFile (fun s => s) (fun _ _ => ⟨200, "b"⟩)
        "https://www.govinfo.gov/bulkdata/BILLS/118/1/hr/a.xml" ["data"] 3
        (bulkDownloadFile (fun s => s) (fun _ _ => ⟨200, "b"⟩)
          "https://www.govinfo.gov/bulkdata/BILLS/118/1/hr/a.xml" ["data"] 3 c8St).2.1).2.2 = [] :=
  c8_tracked_url_skipped_without_network (fun s => s) (fun _ _ => ⟨200, "b"⟩)
    "https://www.govinfo.gov/bulkdata/BILLS/118/1/hr/a.xml" ["data"] 3 c8St (by decide)

def c4Url : String := "https://www.govinfo.gov/bulkdata/BILLS/118/1/hr/BILLS-118hr1ih.xml"

/-- A tracking database whose only row belongs to `c4Url` itself. -/
def c4Db : List DbRecord :=
  [{ url := c4Url, checksum := some "cafe", status := "COMPLETED" }]

def c4St : DlState := { downloadedFiles := [], db := c4Db, failedUrls := [], fs := [] }

/-- **C4, counterexample.** The claim says a checksum match against the
same URL's own prior record does not trigger the duplicate-content skip.
Here the database holds exactly one row — recorded for the downloaded URL
itself — whose checksum matches the freshly computed one, yet the worker
deletes the just-written file and returns `SKIPPED` with the duplicate
error: `_is_duplicate` never looks at the URL column. -/
theorem c4_same_url_checksum_triggers_skip :
    (∀ r ∈ c4Db, r.url = c4Url) ∧
      (bulkDownloadFile (fun _ => "cafe") (fun _ _ => ⟨200, "<bill/>"⟩)
          c4Url ["data"] 3 c4St).1.status = DStatus.skipped ∧
      (bulkDownloadFile (fun _ => "cafe") (fun _ _ => ⟨200, "<bill/>"⟩)
          c4Url ["data"] 3 c4St).1.error = some "Duplicate file detected" ∧
      fsRead (bulkDownloadFile (fun _ => "cafe") (fun _ _ => ⟨200, "<bill/>"⟩)
          c4Url ["data"] 3 c4St).2.1.fs (joinSegments (getLocalPath c4Url ["data"])) =
        none := by
  refine ⟨?_, ?_, ?_, ?_⟩ <;> decide

/-- **C4, amended.** When checksum deduplication finds the computed
checksum among the previously recorded ones — for *any* record,
regardless of whether it was stored for the same or a different URL — the
worker deletes the just-written file and returns `SKIPPED` with the
duplicate-content error. -/
theorem c4_any_checksum_match_skips (hash : String → String)
    (req : ℕ → Accept → HttpResp) (url : String) (baseDir : List String)
    (retryCount : ℕ) (st : DlState)
    (hnotdl : st.downloadedFiles.contains url = false)
    (hretry : 1 ≤ retryCount)
    (h200 : (req 0 Accept.standard).status = 200)
    (hdup : st.db.any
      (fun r => r.checksum == some (hash (req 0 Accept.standard).body)) = true) :
    (bulkDownloadFile hash req url baseDir retryCount st).1.status = DStatus.skipped ∧
      (bulkDownloadFile hash req url baseDir retryCount st).1.error =
        some "Duplicate file detected" ∧
      fsRead (bulkDownloadFile hash req url baseDir retryCount st).2.1.fs
        (joinSegments (getLocalPath url baseDir)) = none := by
  obtain ⟨rem, hrem⟩ : ∃ m, retryCount = m + 1 := ⟨retryCount - 1, by omega⟩
  subst hrem
  have hs200 : ((req 0 Accept.standard).status == 200) = true := by simp [h200]
  simp only [bulkDownloadFile]
  rw [if_neg (by simpa using hnotdl)]
  simp only [dlLoop, hs200, if_true, isDuplicate, hdup]
  simp [fsRead_fsUnlink_self]

theorem c4_any_checksum_match_skips_witness :
    (bulkDownloadFile (fun _ => "cafe") (fun _ _ => ⟨200, "<bill/>"⟩)
        c4Url ["data"] 3 c4St).1.status = DStatus.skipped ∧
      (bulkDownloadFile (fun _ => "cafe") (fun _ _ => ⟨200, "<bill/>"⟩)
          c4Url ["data"] 3 c4St).1.error = some "Duplicate file detected" ∧
      fsRead (bulkDownloadFile (fun _ => "cafe") (fun _ _ => ⟨200, "<bill/>"⟩)
          c4Url ["data"] 3 c4St).2.1.fs (joinSegments (getLocalPath c4Url ["data"])) =
        none :=
  c4_any_checksum_match_skips (fun _ => "cafe") (fun _ _ => ⟨200, "<bill/>"⟩)
    c4Url ["data"] 3 c4St (by decide) (by norm_num) (by decide) (by decide)

/-- A server that answers 406 to the standard `Accept` header and 200
(with a nonempty body) to the wildcard retry, on every attempt. -/
def c9Req : ℕ → Accept → HttpResp := fun _ a =>
  match a with
  | Accept.standard => ⟨406, ""⟩
  | Accept.wildcard => ⟨200, "WILDCARD-BODY"⟩

def c9Url : String := "https://www.govinfo.gov/bulkdata/BILLS/118/1/hr/a.xml"

def c9St : DlState := { downloadedFiles := [], db := [], failedUrls := [], fs := [] }

/-- **C9, counterexample.** The claim says that when the wildcard
`Accept: */*` retry of a 406 returns HTTP 200, its body is the one saved
to disk.  Against a server whose wildcard retries always return 200, the
worker saves nothing at all: each wildcard success merely runs `continue`
and the next attempt re-requests with the original headers (observe two
requests per attempt in the call log), until the loop exhausts with the
filesystem untouched and the result still `PENDING`. -/
theorem c9_wildcard_success_body_not_saved :
    (bulkDownloadFile (fun s => s) c9Req c9Url ["data"] 3 c9St).1.status =
        DStatus.pending ∧
      (bulkDownloadFile (fun s => s) c9Req c9Url ["data"] 3 c9St).2.1.fs = [] ∧
      (bulkDownloadFile (fun s => s) c9Req c9Url ["data"] 3 c9St).2.2 =
        [(0, Accept.standard), (0, Accept.wildcard), (1, Accept.standard),
         (1, Accept.wildcard), (2, Accept.standard), (2, Accept.wildcard)] := by
  refine ⟨?_, ?_, ?_⟩ <;> decide

/-- **C9, amended.** On an HTTP 406 the worker does retry the same URL
once with a wildcard `Accept: */*` header before treating the attempt as
an error — but when that wildcard retry returns HTTP 200 its response
body is discarded: nothing is written, the shared state is unchanged, and
the loop simply proceeds to the next attempt, re-requesting with the
original headers. -/
theorem c9_wildcard_success_discarded (hash : String → String)
    (req : ℕ → Accept → HttpResp) (url localPath : String)
    (retryCount attempt remaining : ℕ) (st : DlState) (res : DlResult)
    (calls : List (ℕ × Accept))
    (h406 : (req attempt Accept.standard).status = 406)
    (h200 : (req attempt Accept.wildcard).status = 200) :
    dlLoop hash req url localPath retryCount attempt (remaining + 1) st res calls =
      dlLoop hash req url localPath retryCount (attempt + 1) remaining st res
        (calls ++ [(attempt, Accept.standard), (attempt, Accept.wildcard)]) := by
  have hs200 : ((req attempt Accept.standard).status == 200) = false := by simp [h406]
  have hs406 : ((req attempt Accept.standard).status == 406) = true := by simp [h406]
  have hw200 : ((req attempt Accept.wildcard).status == 200) = true := by simp [h200]
  simp [dlLoop, hs200, hs406, hw200]

theorem c9_wildcard_success_discarded_witness :
    dlLoop (fun s => s) c9Req c9Url "data/a.xml" 3 0 3 c9St
        { url := c9Url, localPath := "data/a.xml", status := DStatus.pending,
          error := none, checksum := none } [] =
      dlLoop (fun s => s) c9Req c9Url "data/a.xml" 3 1 2 c9St
        { url := c9Url, localPath := "data/a.xml", status := DStatus.pending,
          error := none, checksum := none }
        [(0, Accept.standard), (0, Accept.wildcard)] :=
  c9_wildcard_success_discarded (fun s => s) c9Req c9Url "data/a.xml" 3 0 2 c9St
    { url := c9Url, localPath := "data/a.xml", status := DStatus.pending,
      error := none, checksum := none } [] rfl rfl

/-!
## `GovInfoBulkDownloader._crawl_collection_recursive` (`scripts/govinfo_bulk_downloader.py`, lines 346-438)

The remote listing tree is modelled directly: `RNode` is a
first-child/next-sibling encoding of the entries a directory listing
yields, in listing order (`leaf` ends a sibling list; a `folder` node
carries its own listing as `children`).  The crawler enters a directory
only after checking `current_depth > max_depth` (returning `[]`
silently), collects file links whose lowercased name ends in
`.xml`/`.xsl`/`.xsd`, and recurses into a subdirectory only when its link
contains both `/bulkdata/` and the collection name.  The root call passes
`current_depth = 0`.
-/

inductive RNode where
  | leaf
  | file (link : String) (next : RNode)
  | folder (link : String) (children : RNode) (next : RNode)
deriving DecidableEq, Repr

/-- `link.lower().endswith(('.xml', '.xsl', '.xsd'))`. -/
def hasAllowedExt (link : String) : Bool :=
  strEndsWith (strLower link) ".xml" || strEndsWith (strLower link) ".xsl" ||
    strEndsWith (strLower link) ".xsd"

/-- The entry walk of `_crawl_collection_recursive` at depth `d`; the
recursive call into a subdirectory performs the `current_depth >
max_depth` guard of the callee inline (the callee returns `[]` before
doing anything else). -/
def crawlEntries (collection : String) (maxDepth : ℕ) : ℕ → RNode → List String
  | _, .leaf => []
  | d, .file link next =>
    (if hasAllowedExt link then [link] else []) ++ crawlEntries collection maxDepth d next
  | d, .folder link children next =>
    (if strHasSub link "/bulkdata/" && strHasSub link collection then
      (if d + 1 > maxDepth then [] else crawlEntries collection maxDepth (d + 1) children)
     else []) ++ crawlEntries collection maxDepth d next

/-- `_crawl_collection_recursive(start_url, collection, max_depth, 0)` on
the root listing. -/
def crawlCollection (collection : String) (maxDepth : ℕ) (root : RNode) : List String :=
  if 0 > maxDepth then [] else crawlEntries collection maxDepth 0 root

def c7Link (name : String) : String := "https://www.govinfo.gov/bulkdata/BILLS/118/" ++ name

/-- A directory tree five listing levels deep: each level holds one
`.xml` file and (up to level four) one subdirectory leading to the next
level. -/
def c7Tree : RNode :=
  .file (c7Link "f1.xml")
    (.folder (c7Link "a/")
      (.file (c7Link "a/f2.xml")
        (.folder (c7Link "a/b/")
          (.file (c7Link "a/b/f3.xml")
            (.folder (c7Link "a/b/c/")
              (.file (c7Link "a/b/c/f4.xml")
                (.folder (c7Link "a/b/c/d/")
                  (.file (c7Link "a/b/c/d/f5.xml") .leaf)
                  .leaf))
              .leaf))
          .leaf))
      .leaf)

/-- **C7, counterexample.** On the five-level tree with `max_depth = 2`
the crawl returns the files of the first *three* levels, not the first
two: recursion is cut only when `current_depth > max_depth`, and a file
three levels down is listed by the call at depth 2.  (Files of levels
four and five are silently omitted and the crawl terminates.) -/
theorem c7_crawl_keeps_three_levels :
    crawlCollection "BILLS" 2 c7Tree =
      [c7Link "f1.xml", c7Link "a/f2.xml", c7Link "a/b/f3.xml"] ∧
      c7Link "a/b/f3.xml" ∈ crawlCollection "BILLS" 2 c7Tree ∧
      c7Link "a/b/c/f4.xml" ∉ crawlCollection "BILLS" 2 c7Tree := by
  refine ⟨?_, ?_, ?_⟩ <;> decide

/-- Every folder link in the tree contains `/bulkdata/` and the
collection name, so no subtree is dropped by the link filter. -/
def allFoldersGood (collection : String) : RNode → Bool
  | .leaf => true
  | .file _ next => allFoldersGood collection next
  | .folder link children next =>
    strHasSub link "/bulkdata/" && strHasSub link collection &&
      allFoldersGood collection children && allFoldersGood collection next

/-- Reference collector for the amended claim: all allowed-extension file
links within the first `levels` listing levels, in listing order. -/
def gatherWithin : ℕ → RNode → List String
  | _, .leaf => []
  | 0, _ => []
  | levels + 1, .file link next =>
    (if hasAllowedExt link then [link] else []) ++ gatherWithin (levels + 1) next
  | levels + 1, .folder _ children next =>
    gatherWithin levels children ++ gatherWithin (levels + 1) next

theorem crawlEntries_eq_gatherWithin (collection : String) (maxDepth : ℕ) :
    ∀ (t : RNode) (d : ℕ), allFoldersGood collection t = true → d ≤ maxDepth →
      crawlEntries collection maxDepth d t = gatherWithin (maxDepth + 1 - d) t := by
  intro t
  induction t with
  | leaf =>
    intro d _ _
    simp [crawlEntries, gatherWithin]
  | file link next ih =>
    intro d hg hd
    have hlev : maxDepth + 1 - d = (maxDepth - d) + 1 := by omega
    rw [hlev]
    simp only [crawlEntries, gatherWithin, allFoldersGood] at hg ⊢
    rw [ih d hg hd, hlev]
  | folder link children next ihc ihn =>
    intro d hg hd
    simp only [allFoldersGood, Bool.and_eq_true] at hg
    obtain ⟨⟨⟨hl1, hl2⟩, hgc⟩, hgn⟩ := hg
    have hlev : maxDepth + 1 - d = (maxDepth - d) + 1 := by omega
    rw [hlev]
    simp only [crawlEntries, gatherWithin, hl1, hl2, Bool.and_self, if_true]
    rw [ihn d hgn hd, hlev]
    by_cases hdeep : d + 1 > maxDepth
    · have h0 : maxDepth - d = 0 := by omega
      have hz : gatherWithin 0 children = [] := by
        cases children <;> simp [gatherWithin]
      simp [hdeep, h0, hz]
    · have hle : d + 1 ≤ maxDepth := by omega
      have hlev2 : maxDepth + 1 - (d + 1) = maxDepth - d := by omega
      rw [if_neg hdeep, ihc (d + 1) hgc hle, hlev2]

/-- **C7, amended.** Whenever every folder link passes the
collection-containment filter, the crawl started at depth 0 returns
exactly the allowed-extension files within the first `max_depth + 1`
listing levels: recursion stops silently once the depth exceeds
`max_depth`, deeper files are omitted without error, and the crawl
terminates on any finite tree. -/
theorem c7_crawl_collects_maxdepth_plus_one_levels (collection : String)
    (maxDepth : ℕ) (root : RNode) (hg : allFoldersGood collection root = true) :
    crawlCollection collection maxDepth root = gatherWithin (maxDepth + 1) root := by
  have h := crawlEntries_eq_gatherWithin collection maxDepth root 0 hg (Nat.zero_le _)
  simpa [crawlCollection] using h

theorem c7_crawl_collects_maxdepth_plus_one_levels_witness :
    crawlCollection "BILLS" 2 c7Tree = gatherWithin 3 c7Tree :=
  c7_crawl_collects_maxdepth_plus_one_levels "BILLS" 2 c7Tree (by decide)

end OpenDiscourse
